import Mathlib

/-!
Shallow embedding of the SimpleSim Movement & Sensor-Detection Engine
(files `src/Movable3D.py`, `src/GroundTarget.py`, `src/UAV.py`,
`src/Simulator.py`, `src/utilities.py` of the repository, together with the
legacy root-level copies of the same modules), and proofs of the frozen
claims about it.

Modelling conventions:
* numpy float64 values are modelled as real numbers (`ℝ`); a separate
  IEEE-aware model with `Option ℝ` coordinates (`none` = non-finite value,
  NaN or ±Inf) is used for the claims about division-by-zero behaviour.
* a numpy `(n, 3)` array is a `List Vec3`;
* pseudo-random draws are passed in as explicit oracle arguments
  (`draw : ℕ → Vec3`, a turn-count draw, a list of turn draws, ...);
* `np.random.randint(low, high)` raises `ValueError: low >= high` when
  `high <= low`; fallible generation is therefore embedded in
  `Except String`.
-/

namespace SimpleSim

noncomputable section

/-- A 3D position (x, y, z), one row of a numpy `(n, 3)` array. -/
@[ext]
structure Vec3 where
  x : ℝ
  y : ℝ
  z : ℝ

/-- Componentwise vector addition (numpy broadcasting `+`). -/
def vadd (p q : Vec3) : Vec3 := ⟨p.x + q.x, p.y + q.y, p.z + q.z⟩

/-- Componentwise vector subtraction (numpy `-`). -/
def vsub (p q : Vec3) : Vec3 := ⟨p.x - q.x, p.y - q.y, p.z - q.z⟩

/-- Scalar times vector, componentwise (numpy `*` with a scalar). -/
def vsmul (c : ℝ) (p : Vec3) : Vec3 := ⟨c * p.x, c * p.y, c * p.z⟩

/-- Vector divided by a scalar, componentwise (numpy `/` with a scalar). -/
def vdivs (p : Vec3) (c : ℝ) : Vec3 := ⟨p.x / c, p.y / c, p.z / c⟩

/-- Embedding of `np.linalg.norm` of a 3-vector. -/
def norm3 (p : Vec3) : ℝ := Real.sqrt (p.x ^ 2 + p.y ^ 2 + p.z ^ 2)

/-- Embedding of `start_position + np.cumsum(steps, axis=0)` (Movable3D._initialize_random_route,
line `self.route = self.start_position + np.cumsum(self.steps, axis=0)`):
the route point at index `i` is `pos` plus the sum of the first `i + 1` steps. -/
def routeFrom (pos : Vec3) : List Vec3 → List Vec3
  | [] => []
  | s :: rest => vadd pos s :: routeFrom (vadd pos s) rest

/-- Index-aware map, used to embed numpy slice assignments such as
`steps[t:(t+d), k] = ...`: the function receives the absolute row index. -/
def mapIdxFrom (f : ℕ → Vec3 → Vec3) : ℕ → List Vec3 → List Vec3
  | _, [] => []
  | i, s :: rest => f i s :: mapIdxFrom f (i + 1) rest

/-- The effect of one 90-degree turn on one row of `steps`
(Movable3D._insert_random_turns, body of the `for` loop):
`left_or_right = 0` (here `false`) zeroes column 0, triples column 1 and
zeroes column 2; `left_or_right = 1` (here `true`) zeroes column 1,
triples column 0 and zeroes column 2. -/
def turnStep (leftOrRight : Bool) (s : Vec3) : Vec3 :=
  if leftOrRight then ⟨3 * s.x, 0, 0⟩ else ⟨0, 3 * s.y, 0⟩

/-- One turn applied over the (bound-clipped, as in numpy slicing) window
`[t, t + d)` of the steps array. -/
def applyTurn (d : ℕ) (steps : List Vec3) (turn : ℕ × Bool) : List Vec3 :=
  mapIdxFrom (fun i s => if turn.1 ≤ i ∧ i < turn.1 + d then turnStep turn.2 s else s) 0 steps

/-- All drawn turns, applied in insertion order (later turns overwrite). -/
def applyTurns (d : ℕ) (turns : List (ℕ × Bool)) (steps : List Vec3) : List Vec3 :=
  turns.foldl (applyTurn d) steps

/-- Embedding of `int(number_of_steps/50) if number_of_steps > 50 else 1`
(Movable3D._insert_random_turns, `turn_duration`). -/
def turn_duration (n : ℕ) : ℕ := if 50 < n then n / 50 else 1

/-- The `high` argument of the turn-count draw
`np.random.randint(0, int(number_of_steps/100) if number_of_steps >= 100 else 0)`
(Movable3D._insert_random_turns, first line). -/
def turnCountHigh (n : ℕ) : ℕ := if 100 ≤ n then n / 100 else 0

/-- Movable3D._insert_random_turns. `countDraw` is the value the turn-count
draw would produce when the range is non-empty (`countDraw < turnCountHigh n`
for a faithful run); `turnDraws` is the oracle stream of
(turn_start_time, left_or_right) draws, of which the first `countDraw` are
consumed. `np.random.randint(0, high)` with `high = 0` raises
`ValueError: low >= high`, embedded as the `.error` case. -/
def insert_random_turns (n countDraw : ℕ) (turnDraws : List (ℕ × Bool))
    (steps : List Vec3) : Except String (List Vec3) :=
  if turnCountHigh n = 0 then .error "low >= high"
  else if countDraw = 0 then .ok steps
  else .ok (applyTurns (turn_duration n) (turnDraws.take countDraw) steps)

/-- Movable3D._initialize_random_steps:
`np.random.uniform(0.0, max_step, size=(number_of_steps, 3))`, with the
drawn rows supplied by the oracle `draw`. -/
def initialize_random_steps (n : ℕ) (draw : ℕ → Vec3) : List Vec3 :=
  (List.range n).map draw

/-- GroundTarget._initialize_random_steps:
`np.c_[(np.random.uniform(0.0, max_step, size=(n, 2)), np.zeros((n, 1)))]` —
two uniformly drawn columns and a zero z column. -/
def ground_initialize_random_steps (n : ℕ) (draw : ℕ → ℝ × ℝ) : List Vec3 :=
  (List.range n).map fun i => ⟨(draw i).1, (draw i).2, 0⟩

/-- Movable3D._initialize_random_route: draw the steps, insert random turns,
then form the route as start position plus cumulative sum. -/
def initialize_random_route (n : ℕ) (start : Vec3) (draw : ℕ → Vec3)
    (countDraw : ℕ) (turnDraws : List (ℕ × Bool)) : Except String (List Vec3) :=
  (insert_random_turns n countDraw turnDraws (initialize_random_steps n draw)).map
    (routeFrom start)

/-- GroundTarget route generation: as `initialize_random_route`, with the
ground step matrix (zero z column). -/
def ground_initialize_random_route (n : ℕ) (start : Vec3) (draw : ℕ → ℝ × ℝ)
    (countDraw : ℕ) (turnDraws : List (ℕ × Bool)) : Except String (List Vec3) :=
  (insert_random_turns n countDraw turnDraws (ground_initialize_random_steps n draw)).map
    (routeFrom start)

/-- Movable3D._set_random_maximum_height:
`self.route[(stop_elevation_time + 1):, 2] = self.route[stop_elevation_time, 2]`.
In the source `stop_elevation_time` is always a valid index
(`randint(0, int(n/2))`), so the `none` fallback is unreachable there. -/
def set_random_maximum_height (t : ℕ) (route : List Vec3) : List Vec3 :=
  match route.get? t with
  | some pt => mapIdxFrom (fun i p => if t + 1 ≤ i then ⟨p.x, p.y, pt.z⟩ else p) 0 route
  | none => route

/-- UAV._initialize_random_route: the Movable3D random route followed by
`_set_random_maximum_height`, whose `stop_elevation_time` draw
`np.random.randint(0, int(number_of_steps/2))` raises when `int(n/2) = 0`. -/
def uav_initialize_random_route (n : ℕ) (start : Vec3) (draw : ℕ → Vec3)
    (countDraw : ℕ) (turnDraws : List (ℕ × Bool)) (capDraw : ℕ) :
    Except String (List Vec3) :=
  (initialize_random_route n start draw countDraw turnDraws).bind fun route =>
    if n / 2 = 0 then .error "low >= high"
    else .ok (set_random_maximum_height capDraw route)

/-- Python `int(...)` on a real value: truncation toward zero. -/
def pyint (r : ℝ) : ℤ := if 0 ≤ r then ⌊r⌋ else ⌈r⌉

/-- Movable3D._set_linear_trajectory. Returns the produced route (`position`)
together with the updated `number_of_steps` attribute (`num_steps`).
`direction = displacement / np.linalg.norm(displacement)`;
`position[i] = start_point + direction * step_size * i`. -/
def set_linear_trajectory (start_point end_point : Vec3) (velocity duration dt : ℝ) :
    List Vec3 × ℕ :=
  let num_steps := (pyint (duration / dt)).toNat
  let displacement := vsub end_point start_point
  let direction := vdivs displacement (norm3 displacement)
  let step_size := velocity * dt
  ((List.range num_steps).map (fun i : ℕ => vadd start_point (vsmul (step_size * i) direction)),
    num_steps)

/-- Movable3D._simulate_orbit. `angular_velocity = velocity / radius`;
`position[i] = center + (radius*cos(w*i*dt), radius*sin(w*i*dt), 0)`. -/
def simulate_orbit (center : Vec3) (radius velocity duration dt : ℝ) :
    List Vec3 × ℕ :=
  let num_steps := (pyint (duration / dt)).toNat
  let angular_velocity := velocity / radius
  ((List.range num_steps).map (fun i : ℕ =>
      vadd center ⟨radius * Real.cos (angular_velocity * i * dt),
                   radius * Real.sin (angular_velocity * i * dt), 0⟩),
    num_steps)

/-- Embedding of `np.cross(v, [0, 0, 1])` for `v = (a, b, c)`: `(b, -a, 0)`. -/
def crossWithK (v : Vec3) : Vec3 := ⟨v.y, -v.x, 0⟩

/-- Movable3D._simulate_spiral_orbit: two circular orbits derived from the
start and end displacements relative to `center`, linearly interpolated in
proportion `i / num_steps`. -/
def simulate_spiral_orbit (start_point end_point center : Vec3) (duration dt : ℝ) :
    List Vec3 × ℕ :=
  let num_steps := (pyint (duration / dt)).toNat
  let displacement_start := vsub start_point center
  let displacement_end := vsub end_point center
  let radius_start := norm3 displacement_start
  let radius_end := norm3 displacement_end
  let angular_velocity_start := norm3 (crossWithK displacement_start) / radius_start
  let angular_velocity_end := norm3 (crossWithK displacement_end) / radius_end
  ((List.range num_steps).map (fun i : ℕ =>
      let angle_start := angular_velocity_start * i * dt
      let angle_end := angular_velocity_end * i * dt
      let position_start :=
        vadd center ⟨radius_start * Real.cos angle_start, radius_start * Real.sin angle_start, 0⟩
      let position_end :=
        vadd center ⟨radius_end * Real.cos angle_end, radius_end * Real.sin angle_end, 0⟩
      vadd (vsmul (1 - i / num_steps) position_start) (vsmul (i / num_steps) position_end)),
    num_steps)

/-- Embedding of `np.deg2rad`: degrees to radians. -/
def deg2rad (d : ℝ) : ℝ := d * Real.pi / 180

/-- Simulator._calculate_fov_center: displacement of the FOV footprint center
from the nadir point, as a function of yaw and of the camera angle (both in
degrees). -/
def calculate_fov_center (yaw fov_angle : ℝ) : ℝ × ℝ :=
  (Real.tan (deg2rad fov_angle) * Real.sin (deg2rad yaw),
   Real.tan (deg2rad fov_angle) * Real.cos (deg2rad yaw))

/-- Simulator._initialize_uav_camera_fov: copy of the airborne route where,
for step `i`, the displacement for yaw `i * 10` degrees is added to x and y,
and z is then forced to 0. The source iterates `range(number_of_steps)`,
which equals the route length after generation. -/
def initialize_uav_camera_fov (uavRoute : List Vec3) (fov_angle_degrees : ℝ) :
    List Vec3 :=
  mapIdxFrom (fun step p =>
    ⟨p.x + (calculate_fov_center (step * 10) fov_angle_degrees).1,
     p.y + (calculate_fov_center (step * 10) fov_angle_degrees).2, 0⟩) 0 uavRoute

/-- utilities.compute_euclidean_distance on 2D points:
`np.linalg.norm(point2 - point1)` in `src/utilities.py`, and the explicit
`np.sqrt((p1[0]-p2[0])**2 + (p1[1]-p2[1])**2)` in the legacy root
`utilities.py`; both equal this formula on 2D inputs. -/
def compute_euclidean_distance (point1 point2 : ℝ × ℝ) : ℝ :=
  Real.sqrt ((point2.1 - point1.1) ^ 2 + (point2.2 - point1.2) ^ 2)

/-- utilities.compute_manhattan_distance on 2D points:
`np.sum(np.abs(point1 - point2))`. -/
def compute_manhattan_distance (point1 point2 : ℝ × ℝ) : ℝ :=
  |point1.1 - point2.1| + |point1.2 - point2.2|

/-- Simulator._compute_distances (current `src/Simulator.py`):
iterates `zip(self.target.route, self.uav_camera_fov_route)`, keeps the
(x, y) coordinates, and produces the miss-hit list
(`True if euclidean_distance <= radius else False`), the Euclidean distance
list and the Manhattan distance list. -/
def compute_distances (targetRoute fovRoute : List Vec3) (radius : ℝ) :
    List Bool × List ℝ × List ℝ :=
  match targetRoute, fovRoute with
  | t :: ts, f :: fs =>
      let euclidean_distance := compute_euclidean_distance (t.x, t.y) (f.x, f.y)
      let manhattan_distance := compute_manhattan_distance (t.x, t.y) (f.x, f.y)
      let rest := compute_distances ts fs radius
      ((if euclidean_distance ≤ radius then true else false) :: rest.1,
       euclidean_distance :: rest.2.1,
       manhattan_distance :: rest.2.2)
  | _, _ => ([], [], [])

/-- Legacy Simulator._compute_euclidean_distances (root `Simulator.py`):
iterates `zip(self.UAV.route, self.UAV_camera_FOV_route)` — the UAV route,
not the target route — and otherwise mirrors `compute_distances` without
the Manhattan list. -/
def compute_euclidean_distances (uavRoute fovRoute : List Vec3) (radius : ℝ) :
    List Bool × List ℝ :=
  match uavRoute, fovRoute with
  | u :: us, f :: fs =>
      let euclidean_distance := compute_euclidean_distance (u.x, u.y) (f.x, f.y)
      let rest := compute_euclidean_distances us fs radius
      ((if euclidean_distance ≤ radius then true else false) :: rest.1,
       euclidean_distance :: rest.2)
  | _, _ => ([], [])

/-! ### IEEE-aware float model

Used for the claims about degenerate geometry: a value of type `Option ℝ`
is `some r` for a finite float of value `r` and `none` for a non-finite
float (NaN or ±Inf). numpy emits a warning, not an exception, on float
division by zero, and the non-finite result propagates through subsequent
arithmetic; accordingly `fdiv` by zero yields `none` and every arithmetic
operation propagates `none`. -/

/-- Float addition: propagates non-finite operands. -/
def oadd : Option ℝ → Option ℝ → Option ℝ
  | some a, some b => some (a + b)
  | _, _ => none

/-- Float subtraction: propagates non-finite operands. -/
def osub : Option ℝ → Option ℝ → Option ℝ
  | some a, some b => some (a - b)
  | _, _ => none

/-- Float multiplication: propagates non-finite operands (NaN*x = NaN,
Inf*0 = NaN, Inf*x = ±Inf — all non-finite). -/
def omul : Option ℝ → Option ℝ → Option ℝ
  | some a, some b => some (a * b)
  | _, _ => none

/-- Float division: division by zero yields a non-finite value (NaN when the
numerator is 0, ±Inf otherwise); non-finite operands propagate. -/
def fdiv : Option ℝ → Option ℝ → Option ℝ
  | some a, some b => if b = 0 then none else some (a / b)
  | _, _ => none

/-- Float square root: NaN on negative input, propagates non-finite input. -/
def osqrt : Option ℝ → Option ℝ
  | some a => if a < 0 then none else some (Real.sqrt a)
  | none => none

/-- Float cosine: NaN on non-finite input. -/
def ocos : Option ℝ → Option ℝ := Option.map Real.cos

/-- Float sine: NaN on non-finite input. -/
def osin : Option ℝ → Option ℝ := Option.map Real.sin

/-- A 3D position with IEEE-float (possibly non-finite) coordinates. -/
@[ext]
structure FVec3 where
  x : Option ℝ
  y : Option ℝ
  z : Option ℝ

/-- Componentwise float vector addition. -/
def fvadd (p q : FVec3) : FVec3 := ⟨oadd p.x q.x, oadd p.y q.y, oadd p.z q.z⟩

/-- Componentwise float vector subtraction. -/
def fvsub (p q : FVec3) : FVec3 := ⟨osub p.x q.x, osub p.y q.y, osub p.z q.z⟩

/-- Float scalar times float vector. -/
def fvsmul (c : Option ℝ) (p : FVec3) : FVec3 := ⟨omul c p.x, omul c p.y, omul c p.z⟩

/-- Float vector divided by a float scalar. -/
def fvdivs (p : FVec3) (c : Option ℝ) : FVec3 := ⟨fdiv p.x c, fdiv p.y c, fdiv p.z c⟩

/-- Embedding of `np.linalg.norm` in the float model. -/
def fnorm3 (p : FVec3) : Option ℝ :=
  osqrt (oadd (oadd (omul p.x p.x) (omul p.y p.y)) (omul p.z p.z))

/-- Embedding of `np.cross(v, [0, 0, 1])` in the float model: `(b, -a, 0)` with float ops. -/
def fcrossWithK (v : FVec3) : FVec3 := ⟨v.y, osub (some 0) v.x, some 0⟩

/-- Movable3D._set_linear_trajectory in the float model. The source contains
no validation and no raise path (numpy float division by zero emits a
warning and produces non-finite values), so the result is always `.ok`;
the `Except` type records that construction can, in principle, raise. -/
def set_linear_trajectory_fl (start_point end_point : FVec3) (velocity duration dt : ℝ) :
    Except String (List FVec3 × ℕ) :=
  let num_steps := (pyint (duration / dt)).toNat
  let displacement := fvsub end_point start_point
  let direction := fvdivs displacement (fnorm3 displacement)
  let step_size := velocity * dt
  .ok ((List.range num_steps).map
        (fun i : ℕ => fvadd start_point (fvsmul (some (step_size * i)) direction)),
    num_steps)

/-- Movable3D._simulate_spiral_orbit in the float model; again the source has
no validation and no raise path, so the result is always `.ok`. -/
def simulate_spiral_orbit_fl (start_point end_point center : FVec3) (duration dt : ℝ) :
    Except String (List FVec3 × ℕ) :=
  let num_steps := (pyint (duration / dt)).toNat
  let displacement_start := fvsub start_point center
  let displacement_end := fvsub end_point center
  let radius_start := fnorm3 displacement_start
  let radius_end := fnorm3 displacement_end
  let angular_velocity_start := fdiv (fnorm3 (fcrossWithK displacement_start)) radius_start
  let angular_velocity_end := fdiv (fnorm3 (fcrossWithK displacement_end)) radius_end
  .ok ((List.range num_steps).map (fun i : ℕ =>
      let angle_start := omul (omul angular_velocity_start (some (i : ℝ))) (some dt)
      let angle_end := omul (omul angular_velocity_end (some i)) (some dt)
      let position_start :=
        fvadd center ⟨omul radius_start (ocos angle_start),
                      omul radius_start (osin angle_start), some 0⟩
      let position_end :=
        fvadd center ⟨omul radius_end (ocos angle_end),
                      omul radius_end (osin angle_end), some 0⟩
      fvadd (fvsmul (some (1 - i / num_steps)) position_start)
            (fvsmul (some (i / num_steps)) position_end)),
    num_steps)

end

/-! ### Helper lemmas -/

theorem routeFrom_length (pos : Vec3) (steps : List Vec3) :
    (routeFrom pos steps).length = steps.length := by
  induction steps generalizing pos with
  | nil => rfl
  | cons s rest ih => simp [routeFrom, ih]

theorem mapIdxFrom_length (f : ℕ → Vec3 → Vec3) (k : ℕ) (l : List Vec3) :
    (mapIdxFrom f k l).length = l.length := by
  induction l generalizing k with
  | nil => rfl
  | cons s rest ih => simp [mapIdxFrom, ih]

theorem mapIdxFrom_get? (f : ℕ → Vec3 → Vec3) (k : ℕ) (l : List Vec3) (i : ℕ) :
    (mapIdxFrom f k l).get? i = (l.get? i).map (f (k + i)) := by
  induction l generalizing k i with
  | nil => simp [mapIdxFrom]
  | cons s rest ih =>
      cases i with
      | zero => simp [mapIdxFrom]
      | succ j =>
          have hidx : k + 1 + j = k + (j + 1) := by omega
          simp only [mapIdxFrom, List.get?_cons_succ, ih, hidx]

theorem mapIdxFrom_forall {P : Vec3 → Prop} (f : ℕ → Vec3 → Vec3) (k : ℕ)
    {l : List Vec3} (hf : ∀ i s, P s → P (f i s)) (hl : ∀ s ∈ l, P s) :
    ∀ s ∈ mapIdxFrom f k l, P s := by
  induction l generalizing k with
  | nil => simp [mapIdxFrom]
  | cons s rest ih =>
      intro q hq
      rw [mapIdxFrom] at hq
      rcases List.mem_cons.mp hq with rfl | hq
      · exact hf k s (hl s (by simp))
      · exact ih (k + 1) (fun a ha => hl a (by simp [ha])) q hq

theorem applyTurn_forall {P : Vec3 → Prop} (d : ℕ) (turn : ℕ × Bool)
    {steps : List Vec3} (hturn : ∀ b s, P s → P (turnStep b s))
    (hsteps : ∀ s ∈ steps, P s) : ∀ s ∈ applyTurn d steps turn, P s := by
  refine mapIdxFrom_forall _ 0 (fun i s hs => ?_) hsteps
  by_cases h : turn.1 ≤ i ∧ i < turn.1 + d
  · simpa [h] using hturn turn.2 s hs
  · simpa [h] using hs

theorem applyTurns_forall {P : Vec3 → Prop} (d : ℕ) (turns : List (ℕ × Bool))
    {steps : List Vec3} (hturn : ∀ b s, P s → P (turnStep b s))
    (hsteps : ∀ s ∈ steps, P s) : ∀ s ∈ applyTurns d turns steps, P s := by
  induction turns generalizing steps with
  | nil => simpa [applyTurns] using hsteps
  | cons turn rest ih =>
      intro q hq
      exact ih (applyTurn_forall d turn hturn hsteps) q hq

theorem applyTurn_length (d : ℕ) (steps : List Vec3) (turn : ℕ × Bool) :
    (applyTurn d steps turn).length = steps.length := mapIdxFrom_length _ _ _

theorem applyTurns_length (d : ℕ) (turns : List (ℕ × Bool)) (steps : List Vec3) :
    (applyTurns d turns steps).length = steps.length := by
  induction turns generalizing steps with
  | nil => rfl
  | cons turn rest ih => simp [applyTurns, List.foldl_cons] at ih ⊢
                         simp [ih, applyTurn_length]

theorem le_of_mem_routeFrom (f : Vec3 → ℝ) (hf : ∀ p q, f (vadd p q) = f p + f q)
    {steps : List Vec3} (hs : ∀ s ∈ steps, 0 ≤ f s) (pos : Vec3) :
    ∀ q ∈ routeFrom pos steps, f pos ≤ f q := by
  induction steps generalizing pos with
  | nil => simp [routeFrom]
  | cons s rest ih =>
      intro q hq
      have hstep : f pos ≤ f (vadd pos s) := by
        rw [hf]; linarith [hs s (by simp)]
      rw [routeFrom] at hq
      rcases List.mem_cons.mp hq with rfl | hq
      · exact hstep
      · exact le_trans hstep (ih (fun a ha => hs a (by simp [ha])) (vadd pos s) q hq)

theorem pairwise_routeFrom (f : Vec3 → ℝ) (hf : ∀ p q, f (vadd p q) = f p + f q)
    {steps : List Vec3} (hs : ∀ s ∈ steps, 0 ≤ f s) (pos : Vec3) :
    (routeFrom pos steps).Pairwise (fun p q => f p ≤ f q) := by
  induction steps generalizing pos with
  | nil => simp [routeFrom]
  | cons s rest ih =>
      refine List.Pairwise.cons ?_ (ih (fun a ha => hs a (by simp [ha])) (vadd pos s))
      exact le_of_mem_routeFrom f hf (fun a ha => hs a (by simp [ha])) (vadd pos s)

theorem set_random_maximum_height_length (t : ℕ) (route : List Vec3) :
    (set_random_maximum_height t route).length = route.length := by
  unfold set_random_maximum_height
  cases route.get? t with
  | some pt => simp [mapIdxFrom_length]
  | none => rfl

theorem set_random_maximum_height_get? (t : ℕ) (route : List Vec3) {pt : Vec3}
    (hpt : route.get? t = some pt) (i : ℕ) :
    (set_random_maximum_height t route).get? i =
      if t + 1 ≤ i then (route.get? i).map (fun p => ⟨p.x, p.y, pt.z⟩) else route.get? i := by
  unfold set_random_maximum_height
  rw [hpt]
  simp only [mapIdxFrom_get?, Nat.zero_add]
  by_cases h : t + 1 ≤ i
  · simp [h]
  · simp [h]

theorem insert_random_turns_length {n cd : ℕ} {td : List (ℕ × Bool)}
    {steps out : List Vec3} (h : insert_random_turns n cd td steps = .ok out) :
    out.length = steps.length := by
  unfold insert_random_turns at h
  split_ifs at h with h1 h2
  · injection h with h
    rw [← h]
  · injection h with h
    rw [← h, applyTurns_length]

theorem insert_random_turns_forall {P : Vec3 → Prop} {n cd : ℕ} {td : List (ℕ × Bool)}
    {steps out : List Vec3} (hturn : ∀ b s, P s → P (turnStep b s))
    (hsteps : ∀ s ∈ steps, P s) (h : insert_random_turns n cd td steps = .ok out) :
    ∀ s ∈ out, P s := by
  unfold insert_random_turns at h
  split_ifs at h with h1 h2
  · injection h with h
    rw [← h]; exact hsteps
  · injection h with h
    rw [← h]; exact applyTurns_forall _ _ hturn hsteps

theorem initialize_random_steps_length (n : ℕ) (draw : ℕ → Vec3) :
    (initialize_random_steps n draw).length = n := by
  simp [initialize_random_steps]

theorem ground_initialize_random_steps_length (n : ℕ) (draw : ℕ → ℝ × ℝ) :
    (ground_initialize_random_steps n draw).length = n := by
  simp [ground_initialize_random_steps]

theorem initialize_random_route_length {n : ℕ} {start : Vec3} {draw : ℕ → Vec3}
    {cd : ℕ} {td : List (ℕ × Bool)} {r : List Vec3}
    (h : initialize_random_route n start draw cd td = .ok r) : r.length = n := by
  unfold initialize_random_route at h
  cases hins : insert_random_turns n cd td (initialize_random_steps n draw) with
  | error e => rw [hins] at h; simp [Except.map] at h
  | ok out =>
      rw [hins] at h
      simp only [Except.map, Except.ok.injEq] at h
      rw [← h, routeFrom_length, insert_random_turns_length hins,
        initialize_random_steps_length]

theorem ground_initialize_random_route_length {n : ℕ} {start : Vec3} {draw : ℕ → ℝ × ℝ}
    {cd : ℕ} {td : List (ℕ × Bool)} {r : List Vec3}
    (h : ground_initialize_random_route n start draw cd td = .ok r) : r.length = n := by
  unfold ground_initialize_random_route at h
  cases hins : insert_random_turns n cd td (ground_initialize_random_steps n draw) with
  | error e => rw [hins] at h; simp [Except.map] at h
  | ok out =>
      rw [hins] at h
      simp only [Except.map, Except.ok.injEq] at h
      rw [← h, routeFrom_length, insert_random_turns_length hins,
        ground_initialize_random_steps_length]

theorem uav_initialize_random_route_length {n : ℕ} {start : Vec3} {draw : ℕ → Vec3}
    {cd : ℕ} {td : List (ℕ × Bool)} {capDraw : ℕ} {r : List Vec3}
    (h : uav_initialize_random_route n start draw cd td capDraw = .ok r) :
    r.length = n := by
  unfold uav_initialize_random_route at h
  cases hbase : initialize_random_route n start draw cd td with
  | error e => rw [hbase] at h; simp [Except.bind] at h
  | ok route =>
      rw [hbase] at h
      simp only [Except.bind] at h
      split_ifs at h with h1
      injection h with h
      rw [← h, set_random_maximum_height_length,
        initialize_random_route_length hbase]

/-! ### Claims -/

/-- Claim C2 (code_bug): the spec says that with `number_of_steps < 100`
turn insertion draws exactly 0 turns and generation completes, but in the
code the turn-count draw is `np.random.randint(0, 0)`, which raises
`ValueError: low >= high`; route generation with 50 steps therefore fails.
This theorem evaluates the embedded generator at the failing input
`number_of_steps = 50`: the upper bound of the turn-count range is 0 and
generation returns the `ValueError`. -/
theorem random_walk_50_steps_raises :
    turnCountHigh 50 = 0 ∧
      initialize_random_route 50 ⟨0, 0, 0⟩ (fun _ => ⟨0, 0, 0⟩) 0 []
        = .error "low >= high" :=
  ⟨rfl, rfl⟩

/-- Claim C7 (confirmed): in every generation mode (random walk — generic,
airborne and ground variants — linear, orbit, spiral) the produced route has
exactly `number_of_steps` entries: for the random-walk pipelines the
`number_of_steps` attribute is left unchanged and the route length equals it;
for the three kinematic models the route length equals the `num_steps` value
that the source assigns to `number_of_steps`. -/
theorem route_length_eq_number_of_steps :
    (∀ (n : ℕ) (start : Vec3) (draw : ℕ → Vec3) (cd : ℕ) (td : List (ℕ × Bool))
        (r : List Vec3), initialize_random_route n start draw cd td = .ok r →
        r.length = n)
    ∧ (∀ (n : ℕ) (start : Vec3) (draw : ℕ → Vec3) (cd : ℕ) (td : List (ℕ × Bool))
        (capDraw : ℕ) (r : List Vec3),
        uav_initialize_random_route n start draw cd td capDraw = .ok r →
        r.length = n)
    ∧ (∀ (n : ℕ) (start : Vec3) (draw : ℕ → ℝ × ℝ) (cd : ℕ) (td : List (ℕ × Bool))
        (r : List Vec3), ground_initialize_random_route n start draw cd td = .ok r →
        r.length = n)
    ∧ (∀ (s e : Vec3) (v dur dt : ℝ),
        ((set_linear_trajectory s e v dur dt).1).length = (set_linear_trajectory s e v dur dt).2)
    ∧ (∀ (c : Vec3) (rad v dur dt : ℝ),
        ((simulate_orbit c rad v dur dt).1).length = (simulate_orbit c rad v dur dt).2)
    ∧ (∀ (s e c : Vec3) (dur dt : ℝ),
        ((simulate_spiral_orbit s e c dur dt).1).length
          = (simulate_spiral_orbit s e c dur dt).2) := by
  refine ⟨?_, ?_, ?_, ?_, ?_, ?_⟩
  · intro n start draw cd td r h
    exact initialize_random_route_length h
  · intro n start draw cd td capDraw r h
    exact uav_initialize_random_route_length h
  · intro n start draw cd td r h
    exact ground_initialize_random_route_length h
  · intro s e v dur dt
    simp only [set_linear_trajectory]
    rw [List.length_map, List.length_range]
  · intro c rad v dur dt
    simp only [simulate_orbit]
    rw [List.length_map, List.length_range]
  · intro s e c dur dt
    simp only [simulate_spiral_orbit]
    rw [List.length_map, List.length_range]

/-- Witness for C7: route lengths evaluated at concrete inputs — a
100-step random walk whose turn-count draw is 0, and the linear model from
the spec scenario — by direct application of the theorem. -/
theorem route_length_eq_number_of_steps_witness :
    initialize_random_route 100 ⟨0, 0, 0⟩ (fun _ => ⟨1, 1, 1⟩) 0 []
        = .ok (routeFrom ⟨0, 0, 0⟩ (initialize_random_steps 100 fun _ => ⟨1, 1, 1⟩))
    ∧ (routeFrom ⟨0, 0, 0⟩ (initialize_random_steps 100 fun _ => ⟨1, 1, 1⟩)).length = 100
    ∧ ((set_linear_trajectory ⟨0, 0, 0⟩ ⟨10, 0, 0⟩ 1 5 1).1).length
        = (set_linear_trajectory ⟨0, 0, 0⟩ ⟨10, 0, 0⟩ 1 5 1).2 :=
  ⟨rfl,
   route_length_eq_number_of_steps.1 100 ⟨0, 0, 0⟩ (fun _ => ⟨1, 1, 1⟩) 0 [] _ rfl,
   route_length_eq_number_of_steps.2.2.2.1 ⟨0, 0, 0⟩ ⟨10, 0, 0⟩ 1 5 1⟩

theorem routeFrom_z_zero (steps : List Vec3) (hz : ∀ s ∈ steps, s.z = 0) :
    ∀ start : Vec3, start.z = 0 → ∀ p ∈ routeFrom start steps, p.z = 0 := by
  induction steps with
  | nil => intro start _ p hp; simp [routeFrom] at hp
  | cons s rest ih =>
      intro start hs p hp
      rw [routeFrom] at hp
      have hz0 : (vadd start s).z = 0 := by
        simp [vadd, hs, hz s (by simp)]
      rcases List.mem_cons.mp hp with rfl | hp
      · exact hz0
      · exact ih (fun a ha => hz a (by simp [ha])) (vadd start s) hz0 p hp

theorem ground_initialize_random_steps_z (n : ℕ) (draw : ℕ → ℝ × ℝ) :
    ∀ s ∈ ground_initialize_random_steps n draw, s.z = 0 := by
  intro s hs
  simp only [ground_initialize_random_steps, List.mem_map] at hs
  obtain ⟨i, _, rfl⟩ := hs
  rfl

theorem turnStep_z_zero (b : Bool) (s : Vec3) : (turnStep b s).z = 0 := by
  cases b <;> simp [turnStep]

/-- Claim C8 (confirmed): a ground-constrained random walk started at a
position with z = 0 yields a route whose z-coordinate is 0 at every step:
the step matrix has a zero z-column by construction, turn insertion always
zeroes the z entry it touches, and the cumulative sum preserves zero. -/
theorem ground_route_z_eq_zero (n : ℕ) (start : Vec3) (draw : ℕ → ℝ × ℝ)
    (cd : ℕ) (td : List (ℕ × Bool)) (r : List Vec3) (hs : start.z = 0)
    (h : ground_initialize_random_route n start draw cd td = .ok r) :
    ∀ p ∈ r, p.z = 0 := by
  unfold ground_initialize_random_route at h
  cases hins : insert_random_turns n cd td (ground_initialize_random_steps n draw) with
  | error e => rw [hins] at h; simp [Except.map] at h
  | ok out =>
      rw [hins] at h
      simp only [Except.map, Except.ok.injEq] at h
      have hout : ∀ s ∈ out, s.z = 0 :=
        insert_random_turns_forall (fun b s _ => turnStep_z_zero b s)
          (ground_initialize_random_steps_z n draw) hins
      rw [← h]
      exact routeFrom_z_zero out hout start hs

/-- Witness for C8: the 100-step ground walk (turn-count draw 0) started at
the origin has z = 0 along its entire route, by direct application of the
theorem. -/
theorem ground_route_z_eq_zero_witness :
    (⟨0, 0, 0⟩ : Vec3).z = 0
    ∧ ground_initialize_random_route 100 ⟨0, 0, 0⟩ (fun _ => (1, 2)) 0 []
        = .ok (routeFrom ⟨0, 0, 0⟩ (ground_initialize_random_steps 100 fun _ => (1, 2)))
    ∧ ∀ p ∈ routeFrom ⟨0, 0, 0⟩ (ground_initialize_random_steps 100 fun _ => (1, 2)),
        p.z = 0 :=
  ⟨rfl, rfl, ground_route_z_eq_zero 100 ⟨0, 0, 0⟩ (fun _ => (1, 2)) 0 [] _ rfl rfl⟩

theorem turnStep_nonneg_xy (b : Bool) (s : Vec3) (hps : 0 ≤ s.x ∧ 0 ≤ s.y) :
    0 ≤ (turnStep b s).x ∧ 0 ≤ (turnStep b s).y := by
  cases b <;> simp [turnStep] <;> linarith [hps.1, hps.2]

theorem random_route_mono_core {n cd : ℕ} {td : List (ℕ × Bool)}
    {steps out : List Vec3} (start : Vec3)
    (hsteps : ∀ s ∈ steps, 0 ≤ s.x ∧ 0 ≤ s.y)
    (hins : insert_random_turns n cd td steps = .ok out) :
    (routeFrom start out).Pairwise (fun p q => p.x ≤ q.x)
      ∧ (routeFrom start out).Pairwise (fun p q => p.y ≤ q.y) := by
  have hout : ∀ s ∈ out, 0 ≤ s.x ∧ 0 ≤ s.y :=
    insert_random_turns_forall turnStep_nonneg_xy hsteps hins
  exact ⟨pairwise_routeFrom Vec3.x (fun p q => rfl) (fun s hs => (hout s hs).1) start,
         pairwise_routeFrom Vec3.y (fun p q => rfl) (fun s hs => (hout s hs).2) start⟩

/-- Claim C10 (confirmed): the random-walk routes (generic/airborne and
ground variants) have non-decreasing x and y coordinate sequences, provided
every drawn per-step displacement is non-negative (which holds for draws
from `uniform(0, max_step)` with positive `max_step`): turn insertion only
zeroes a displacement or multiplies it by 3, so non-negativity survives to
the cumulative sum. -/
theorem random_walk_xy_nondecreasing :
    (∀ (n : ℕ) (start : Vec3) (draw : ℕ → Vec3) (cd : ℕ) (td : List (ℕ × Bool))
        (r : List Vec3), (∀ i, 0 ≤ (draw i).x) → (∀ i, 0 ≤ (draw i).y) →
        initialize_random_route n start draw cd td = .ok r →
        r.Pairwise (fun p q => p.x ≤ q.x) ∧ r.Pairwise (fun p q => p.y ≤ q.y))
    ∧ (∀ (n : ℕ) (start : Vec3) (draw : ℕ → ℝ × ℝ) (cd : ℕ) (td : List (ℕ × Bool))
        (r : List Vec3), (∀ i, 0 ≤ (draw i).1) → (∀ i, 0 ≤ (draw i).2) →
        ground_initialize_random_route n start draw cd td = .ok r →
        r.Pairwise (fun p q => p.x ≤ q.x) ∧ r.Pairwise (fun p q => p.y ≤ q.y)) := by
  constructor
  · intro n start draw cd td r hx hy h
    unfold initialize_random_route at h
    cases hins : insert_random_turns n cd td (initialize_random_steps n draw) with
    | error e => rw [hins] at h; simp [Except.map] at h
    | ok out =>
        rw [hins] at h
        simp only [Except.map, Except.ok.injEq] at h
        rw [← h]
        refine random_route_mono_core start (fun s hs => ?_) hins
        simp only [initialize_random_steps, List.mem_map] at hs
        obtain ⟨i, _, rfl⟩ := hs
        exact ⟨hx i, hy i⟩
  · intro n start draw cd td r hx hy h
    unfold ground_initialize_random_route at h
    cases hins : insert_random_turns n cd td (ground_initialize_random_steps n draw) with
    | error e => rw [hins] at h; simp [Except.map] at h
    | ok out =>
        rw [hins] at h
        simp only [Except.map, Except.ok.injEq] at h
        rw [← h]
        refine random_route_mono_core start (fun s hs => ?_) hins
        simp only [ground_initialize_random_steps, List.mem_map] at hs
        obtain ⟨i, _, rfl⟩ := hs
        exact ⟨hx i, hy i⟩

/-- Witness for C10: the 100-step random walk with constant positive draws
has non-decreasing x and y sequences, by direct application of the
theorem. -/
theorem random_walk_xy_nondecreasing_witness :
    (∀ i : ℕ, 0 ≤ ((fun _ : ℕ => (⟨1, 2, 3⟩ : Vec3)) i).x)
    ∧ (∀ i : ℕ, 0 ≤ ((fun _ : ℕ => (⟨1, 2, 3⟩ : Vec3)) i).y)
    ∧ ((routeFrom ⟨0, 0, 0⟩ (initialize_random_steps 100 fun _ => ⟨1, 2, 3⟩)).Pairwise
          (fun p q => p.x ≤ q.x)
        ∧ (routeFrom ⟨0, 0, 0⟩ (initialize_random_steps 100 fun _ => ⟨1, 2, 3⟩)).Pairwise
          (fun p q => p.y ≤ q.y)) :=
  ⟨fun _ => by norm_num [Vec3.x],
   fun _ => by norm_num [Vec3.y],
   random_walk_xy_nondecreasing.1 100 ⟨0, 0, 0⟩ (fun _ => ⟨1, 2, 3⟩) 0 [] _
     (fun _ => by norm_num [Vec3.x]) (fun _ => by norm_num [Vec3.y]) rfl⟩

theorem set_random_maximum_height_spec (route : List Vec3) (t : ℕ)
    (ht : t < route.length) (hmono : route.Pairwise (fun p q => p.z ≤ q.z)) :
    (∀ i, ∀ hi : i < (set_random_maximum_height t route).length, t ≤ i →
        ((set_random_maximum_height t route).get ⟨i, hi⟩).z = (route.get ⟨t, ht⟩).z)
    ∧ ((set_random_maximum_height t route).map Vec3.z).maximum
        = ((route.get ⟨t, ht⟩).z : WithBot ℝ) := by
  have hpt : route.get? t = some (route.get ⟨t, ht⟩) := List.get?_eq_get ht
  have hlen : (set_random_maximum_height t route).length = route.length :=
    set_random_maximum_height_length t route
  have hget := set_random_maximum_height_get? t route hpt
  have hz : ∀ i, ∀ hi : i < (set_random_maximum_height t route).length, t ≤ i →
      ((set_random_maximum_height t route).get ⟨i, hi⟩).z = (route.get ⟨t, ht⟩).z := by
    intro i hi hti
    have hi' : i < route.length := by rwa [hlen] at hi
    have h1 := List.get?_eq_get (l := set_random_maximum_height t route) hi
    rw [hget i] at h1
    by_cases hcase : t + 1 ≤ i
    · rw [if_pos hcase, List.get?_eq_get hi'] at h1
      simp only [Option.map_some', Option.some.injEq] at h1
      rw [← h1]
    · have hit : i = t := by omega
      subst hit
      rw [if_neg hcase, List.get?_eq_get hi'] at h1
      simp only [Option.some.injEq] at h1
      rw [← h1]
  refine ⟨hz, List.maximum_eq_coe_iff.mpr ⟨?_, ?_⟩⟩
  · have hti : t < (set_random_maximum_height t route).length := by rwa [hlen]
    exact List.mem_map.mpr ⟨_, List.get_mem _ t hti, hz t hti (le_refl t)⟩
  · intro b hb
    obtain ⟨p, hp, rfl⟩ := List.mem_map.mp hb
    obtain ⟨⟨i, hi⟩, rfl⟩ := List.mem_iff_get.mp hp
    by_cases hti : t ≤ i
    · exact le_of_eq (hz i hi hti)
    · push_neg at hti
      have hi' : i < route.length := by rwa [hlen] at hi
      have h1 := List.get?_eq_get (l := set_random_maximum_height t route) hi
      rw [hget i, if_neg (by omega), List.get?_eq_get hi'] at h1
      simp only [Option.some.injEq] at h1
      rw [← h1]
      exact List.pairwise_iff_get.mp hmono ⟨i, hi'⟩ ⟨t, ht⟩ hti

theorem turnStep_z_nonneg (b : Bool) (s : Vec3) (_h : 0 ≤ s.z) :
    0 ≤ (turnStep b s).z := by
  rw [turnStep_z_zero]

/-- Claim C3 (confirmed): after altitude capping at the drawn index
`stop_elevation_time` (here `capDraw`), the airborne route's z-coordinate is
exactly constant from that index to the end, and the maximum z over the
whole route is attained there — given that the drawn z-displacements are
non-negative (draws from `uniform(0, max_step)`, so z is non-decreasing
before the cap) and the drawn index is in its range `[0, n/2)`. -/
theorem uav_altitude_capping (n : ℕ) (start : Vec3) (draw : ℕ → Vec3)
    (cd : ℕ) (td : List (ℕ × Bool)) (capDraw : ℕ) (r : List Vec3)
    (hdz : ∀ i, 0 ≤ (draw i).z) (hcap : capDraw < n / 2)
    (h : uav_initialize_random_route n start draw cd td capDraw = .ok r) :
    ∀ hc : capDraw < r.length,
      (∀ i, ∀ hi : i < r.length, capDraw ≤ i →
          (r.get ⟨i, hi⟩).z = (r.get ⟨capDraw, hc⟩).z)
      ∧ (r.map Vec3.z).maximum = ((r.get ⟨capDraw, hc⟩).z : WithBot ℝ) := by
  unfold uav_initialize_random_route at h
  cases hbase : initialize_random_route n start draw cd td with
  | error e => rw [hbase] at h; simp [Except.bind] at h
  | ok route =>
      rw [hbase] at h
      simp only [Except.bind] at h
      split_ifs at h with h1
      injection h with h
      subst h
      intro hc
      -- the pre-cap route is z-monotone
      have hmono : route.Pairwise (fun p q => p.z ≤ q.z) := by
        unfold initialize_random_route at hbase
        cases hins : insert_random_turns n cd td (initialize_random_steps n draw) with
        | error e => rw [hins] at hbase; simp [Except.map] at hbase
        | ok out =>
            rw [hins] at hbase
            simp only [Except.map, Except.ok.injEq] at hbase
            have hout : ∀ s ∈ out, 0 ≤ s.z := by
              refine insert_random_turns_forall turnStep_z_nonneg (fun s hs => ?_) hins
              simp only [initialize_random_steps, List.mem_map] at hs
              obtain ⟨i, _, rfl⟩ := hs
              exact hdz i
            rw [← hbase]
            exact pairwise_routeFrom Vec3.z (fun p q => rfl) hout start
      have hroutelen : route.length = n := initialize_random_route_length hbase
      have ht : capDraw < route.length := by
        rw [hroutelen]; omega
      obtain ⟨ha, hb⟩ := set_random_maximum_height_spec route capDraw ht hmono
      have hczd := ha capDraw hc (le_refl capDraw)
      refine ⟨fun i hi hci => (ha i hi hci).trans hczd.symm, ?_⟩
      rw [hczd]
      exact hb

/-- Demo airborne route for the C3 witness: 100 constant climbing steps. -/
def demoUavRoute : List Vec3 :=
  routeFrom ⟨0, 0, 0⟩ (initialize_random_steps 100 fun _ => ⟨0, 0, 1⟩)

/-- The C3 demo capping index 3 is a valid index of the capped demo route. -/
theorem demoUavRoute_cap_length :
    3 < (set_random_maximum_height 3 demoUavRoute).length := by
  rw [set_random_maximum_height_length, demoUavRoute, routeFrom_length,
    initialize_random_steps_length]
  norm_num

/-- Witness for C3: the capping theorem applied to a concrete 100-step
climbing route with capping index 3. -/
theorem uav_altitude_capping_witness :
    (∀ i : ℕ, 0 ≤ ((fun _ : ℕ => (⟨0, 0, 1⟩ : Vec3)) i).z)
    ∧ 3 < 100 / 2
    ∧ ((∀ i, ∀ hi : i < (set_random_maximum_height 3 demoUavRoute).length, 3 ≤ i →
          ((set_random_maximum_height 3 demoUavRoute).get ⟨i, hi⟩).z
            = ((set_random_maximum_height 3 demoUavRoute).get ⟨3, demoUavRoute_cap_length⟩).z)
        ∧ ((set_random_maximum_height 3 demoUavRoute).map Vec3.z).maximum
            = (((set_random_maximum_height 3 demoUavRoute).get
                ⟨3, demoUavRoute_cap_length⟩).z : WithBot ℝ)) :=
  ⟨fun _ => by norm_num [Vec3.z],
   by norm_num,
   uav_altitude_capping 100 ⟨0, 0, 0⟩ (fun _ => ⟨0, 0, 1⟩) 0 [] 3 _
     (fun _ => by norm_num [Vec3.z]) (by norm_num) rfl demoUavRoute_cap_length⟩

/-- Claim C4 (confirmed): at each step `i`, the FOV footprint center equals
the airborne position displaced by
`(tan(angle in radians) * sin(yaw in radians), tan(angle in radians) * cos(yaw in radians))`
with `yaw = i * 10` degrees — a synthetic sweep independent of the route's
direction of travel — and z forced to 0. -/
theorem fov_center_formula (uavRoute : List Vec3) (fov_angle_degrees : ℝ) (i : ℕ) :
    (initialize_uav_camera_fov uavRoute fov_angle_degrees).get? i =
      (uavRoute.get? i).map (fun p =>
        ⟨p.x + Real.tan (deg2rad fov_angle_degrees) * Real.sin (deg2rad (i * 10)),
         p.y + Real.tan (deg2rad fov_angle_degrees) * Real.cos (deg2rad (i * 10)), 0⟩) := by
  unfold initialize_uav_camera_fov
  rw [mapIdxFrom_get?]
  simp only [Nat.zero_add, calculate_fov_center]

theorem compute_distances_hits_eq (a b : List Vec3) (r : ℝ) :
    (compute_distances a b r).1
      = (compute_distances a b r).2.1.map (fun e => if e ≤ r then true else false) := by
  induction a generalizing b with
  | nil => cases b <;> simp [compute_distances]
  | cons t ts ih =>
      cases b with
      | nil => simp [compute_distances]
      | cons f fs => simp [compute_distances, ih]

theorem compute_euclidean_distances_hits_eq (a b : List Vec3) (r : ℝ) :
    (compute_euclidean_distances a b r).1
      = (compute_euclidean_distances a b r).2.map (fun e => if e ≤ r then true else false) := by
  induction a generalizing b with
  | nil => cases b <;> simp [compute_euclidean_distances]
  | cons u us ih =>
      cases b with
      | nil => simp [compute_euclidean_distances]
      | cons f fs => simp [compute_euclidean_distances, ih]

/-- Claim C5 (confirmed): in both the current and the legacy detection
routine, the hit flag at step `i` is exactly the boundary-inclusive
comparison `euclidean[i] <= radius` of the recorded Euclidean distance, so a
distance exactly equal to the radius is classified as a hit. -/
theorem hit_iff_euclidean_le_radius :
    (∀ (a b : List Vec3) (r : ℝ), (compute_distances a b r).1
        = (compute_distances a b r).2.1.map (fun e => if e ≤ r then true else false))
    ∧ (∀ (a b : List Vec3) (r : ℝ), (compute_euclidean_distances a b r).1
        = (compute_euclidean_distances a b r).2.map (fun e => if e ≤ r then true else false))
    ∧ (∀ (a b : List Vec3) (r : ℝ) (i : ℕ) (e : ℝ),
        (compute_distances a b r).2.1.get? i = some e → e = r →
        (compute_distances a b r).1.get? i = some true) := by
  refine ⟨compute_distances_hits_eq, compute_euclidean_distances_hits_eq, ?_⟩
  intro a b r i e he her
  rw [compute_distances_hits_eq, List.get?_map, he, her]
  simp

/-- Witness for C5: a target at (3, 4) against an FOV centered at the origin
with radius 5 sits exactly on the FOV boundary (distance 5) and is
classified as a hit, by direct application of the theorem. -/
theorem hit_iff_euclidean_le_radius_witness :
    (compute_distances [⟨3, 4, 0⟩] [⟨0, 0, 0⟩] 5).2.1.get? 0
        = some (compute_euclidean_distance (3, 4) (0, 0))
    ∧ compute_euclidean_distance (3, 4) (0, 0) = 5
    ∧ (compute_distances [⟨3, 4, 0⟩] [⟨0, 0, 0⟩] 5).1.get? 0 = some true := by
  have h5 : compute_euclidean_distance (3, 4) (0, 0) = 5 := by
    show Real.sqrt (((0:ℝ) - 3) ^ 2 + ((0:ℝ) - 4) ^ 2) = 5
    rw [show ((0:ℝ) - 3) ^ 2 + ((0:ℝ) - 4) ^ 2 = 5 ^ 2 by norm_num,
      Real.sqrt_sq (by norm_num : (0:ℝ) ≤ 5)]
  exact ⟨rfl, h5, hit_iff_euclidean_le_radius.2.2 [⟨3, 4, 0⟩] [⟨0, 0, 0⟩] 5 0 _ rfl h5⟩

/-- Claim C1 (code_bug): the spec (and the docstrings of both Simulator
versions) say the recorded Euclidean distance is between the ground target
and the FOV center. The current `src/Simulator.py` `_compute_distances`
does exactly that (third and fourth conjuncts), but the legacy root
`Simulator.py` `_compute_euclidean_distances` iterates
`zip(self.UAV.route, self.UAV_camera_FOV_route)` — the UAV route instead of
the target route. Failing run: target at (5, 0), UAV and FOV center at the
origin, radius 1: the legacy code records distance 0 and a hit although the
target is at distance 5 (a miss). -/
theorem legacy_detection_distance_divergence :
    (compute_euclidean_distances [⟨0, 0, 0⟩] [⟨0, 0, 0⟩] 1).2 = [0]
    ∧ (compute_euclidean_distances [⟨0, 0, 0⟩] [⟨0, 0, 0⟩] 1).1 = [true]
    ∧ (compute_distances [⟨5, 0, 0⟩] [⟨0, 0, 0⟩] 1).2.1 = [5]
    ∧ (compute_distances [⟨5, 0, 0⟩] [⟨0, 0, 0⟩] 1).1 = [false]
    ∧ (0 : ℝ) ≠ 5 := by
  have h0 : compute_euclidean_distance (0, 0) (0, 0) = 0 := by
    show Real.sqrt (((0:ℝ) - 0) ^ 2 + ((0:ℝ) - 0) ^ 2) = 0
    rw [show ((0:ℝ) - 0) ^ 2 + ((0:ℝ) - 0) ^ 2 = 0 by norm_num, Real.sqrt_zero]
  have h5 : compute_euclidean_distance (5, 0) (0, 0) = 5 := by
    show Real.sqrt (((0:ℝ) - 5) ^ 2 + ((0:ℝ) - 0) ^ 2) = 5
    rw [show ((0:ℝ) - 5) ^ 2 + ((0:ℝ) - 0) ^ 2 = 5 ^ 2 by norm_num,
      Real.sqrt_sq (by norm_num : (0:ℝ) ≤ 5)]
  refine ⟨?_, ?_, ?_, ?_, by norm_num⟩
  · show [compute_euclidean_distance (0, 0) (0, 0)] = [0]
    rw [h0]
  · show [if compute_euclidean_distance (0, 0) (0, 0) ≤ (1:ℝ) then true else false] = [true]
    rw [h0, if_pos (by norm_num : (0:ℝ) ≤ 1)]
  · show [compute_euclidean_distance (5, 0) (0, 0)] = [5]
    rw [h5]
  · show [if compute_euclidean_distance (5, 0) (0, 0) ≤ (1:ℝ) then true else false] = [false]
    rw [h5, if_neg (by norm_num : ¬(5:ℝ) ≤ 1)]

theorem oadd_none_right (x : Option ℝ) : oadd x none = none := by cases x <;> rfl

theorem oadd_none_left (x : Option ℝ) : oadd none x = none := rfl

theorem omul_none_right (x : Option ℝ) : omul x none = none := by cases x <;> rfl

theorem omul_none_left (x : Option ℝ) : omul none x = none := rfl

theorem fdiv_none_right (x : Option ℝ) : fdiv x none = none := by cases x <;> rfl

theorem pyint_five : (pyint ((5 : ℝ) / 1)).toNat = 5 := by
  rw [pyint, if_pos (by norm_num : (0:ℝ) ≤ 5 / 1)]
  norm_num
  rfl

/-- Claim C6 (confirmed): the linear segment traversal produces
`int(duration/dt)` steps (`floor` for the non-negative quotients of the
spec), with position `start + direction * (velocity*dt) * i` where
`direction` is the displacement divided by its norm; on the spec scenario
`(0,0,0) → (10,0,0)`, `velocity = 1`, `duration = 5`, `dt = 1` the route is
exactly `(0,0,0), (1,0,0), (2,0,0), (3,0,0), (4,0,0)`. -/
theorem linear_trajectory_spec :
    (∀ x : ℝ, 0 ≤ x → pyint x = ⌊x⌋)
    ∧ (∀ (s e : Vec3) (v dur dt : ℝ) (i : ℕ),
        ((set_linear_trajectory s e v dur dt).1).get? i
          = if i < (pyint (dur / dt)).toNat then
              some (vadd s (vsmul (v * dt * i) (vdivs (vsub e s) (norm3 (vsub e s)))))
            else none)
    ∧ set_linear_trajectory ⟨0, 0, 0⟩ ⟨10, 0, 0⟩ 1 5 1
        = ([⟨0, 0, 0⟩, ⟨1, 0, 0⟩, ⟨2, 0, 0⟩, ⟨3, 0, 0⟩, ⟨4, 0, 0⟩], 5) := by
  refine ⟨?_, ?_, ?_⟩
  · intro x hx
    rw [pyint, if_pos hx]
  · intro s e v dur dt i
    simp only [set_linear_trajectory]
    rw [List.get?_map]
    by_cases h : i < (pyint (dur / dt)).toNat
    · rw [List.get?_range h, if_pos h]
      rfl
    · have hnone : (List.range (pyint (dur / dt)).toNat).get? i = none :=
        List.get?_eq_none.mpr (by simpa using Nat.le_of_not_lt h)
      rw [hnone, if_neg h]
      rfl
  · have hnorm : norm3 (vsub ⟨10, 0, 0⟩ ⟨0, 0, 0⟩) = 10 := by
      show Real.sqrt (((10:ℝ) - 0) ^ 2 + ((0:ℝ) - 0) ^ 2 + ((0:ℝ) - 0) ^ 2) = 10
      rw [show ((10:ℝ) - 0) ^ 2 + ((0:ℝ) - 0) ^ 2 + ((0:ℝ) - 0) ^ 2 = 10 ^ 2 by norm_num,
        Real.sqrt_sq (by norm_num : (0:ℝ) ≤ 10)]
    simp only [set_linear_trajectory, pyint_five, hnorm]
    rw [show List.range 5 = [0, 1, 2, 3, 4] from rfl]
    simp only [List.map_cons, List.map_nil, Prod.mk.injEq, List.cons.injEq, and_true,
      Vec3.mk.injEq, vadd, vsmul, vdivs, vsub]
    norm_num

/-- Witness for C6: the truncation used for the step count agrees with
`floor` at the non-negative quotient 5, by direct application of the
theorem. -/
theorem linear_trajectory_spec_witness :
    (0:ℝ) ≤ 5 ∧ pyint 5 = ⌊(5:ℝ)⌋ :=
  ⟨by norm_num, linear_trajectory_spec.1 5 (by norm_num)⟩

/-- Counterexample for C9: the claim says degenerate geometry
(`start_point == end_point` in the linear model) raises at construction.
Evaluating the float-model embedding at exactly that input shows no error
is raised: the call returns `.ok` with a 5-step route, every coordinate of
which is non-finite (NaN from the division `0/0` by the zero norm). -/
theorem linear_degenerate_returns_ok :
    set_linear_trajectory_fl ⟨some 0, some 0, some 0⟩ ⟨some 0, some 0, some 0⟩ 1 5 1
      = .ok (List.replicate 5 ⟨none, none, none⟩, 5) := by
  unfold set_linear_trajectory_fl
  simp only [pyint_five]
  have hdir : fvdivs (fvsub ⟨some 0, some 0, some 0⟩ ⟨some 0, some 0, some 0⟩)
      (fnorm3 (fvsub ⟨some 0, some 0, some 0⟩ ⟨some 0, some 0, some 0⟩))
      = ⟨none, none, none⟩ := by
    simp [fvsub, osub, fnorm3, omul, oadd, osqrt, fvdivs, fdiv, Real.sqrt_zero]
  rw [hdir]
  simp only [fvadd, fvsmul, omul_none_right, oadd_none_right]
  rw [List.map_const', List.length_range]

/-- Claim C9 (corrected, amended form): degenerate geometry does NOT raise.
The linear model with `start_point == end_point` divides the zero
displacement by its zero norm and silently returns a route every coordinate
of which is non-finite (NaN); the spiral model with `center` coincident with
`start_point` divides `0/0` for the start angular velocity and silently
returns a route whose x and y coordinates are all non-finite. Neither
constructor contains any validation or raise path. -/
theorem degenerate_geometry_silent_nan :
    (∀ (s : FVec3) (v dur dt : ℝ),
        set_linear_trajectory_fl s s v dur dt
          = .ok (List.replicate (pyint (dur / dt)).toNat ⟨none, none, none⟩,
                 (pyint (dur / dt)).toNat))
    ∧ (∀ (a b c : ℝ) (e : FVec3) (dur dt : ℝ),
        match simulate_spiral_orbit_fl ⟨some a, some b, some c⟩ e
            ⟨some a, some b, some c⟩ dur dt with
        | .ok (route, _) => ∀ p ∈ route, p.x = none ∧ p.y = none
        | .error _ => True) := by
  constructor
  · intro s v dur dt
    obtain ⟨sx, sy, sz⟩ := s
    simp only [set_linear_trajectory_fl]
    have hdir : fvdivs (fvsub ⟨sx, sy, sz⟩ ⟨sx, sy, sz⟩)
        (fnorm3 (fvsub ⟨sx, sy, sz⟩ ⟨sx, sy, sz⟩)) = ⟨none, none, none⟩ := by
      cases sx <;> cases sy <;> cases sz <;>
        simp [fvsub, osub, fnorm3, omul, oadd, osqrt, fvdivs, fdiv, sub_self,
          Real.sqrt_zero, fdiv_none_right]
    rw [hdir]
    simp only [fvadd, fvsmul, omul_none_right, oadd_none_right]
    rw [List.map_const', List.length_range]
  · intro a b c e dur dt
    simp only [simulate_spiral_orbit_fl]
    intro p hp
    simp only [List.mem_map, List.mem_range] at hp
    obtain ⟨i, _, rfl⟩ := hp
    constructor <;>
      simp [fvsub, osub, fnorm3, fcrossWithK, omul, oadd, osub, osqrt, fdiv,
        fvadd, fvsmul, ocos, osin, sub_self, Real.sqrt_zero, omul_none_right,
        omul_none_left, oadd_none_left, oadd_none_right, fdiv_none_right]

end SimpleSim
